import Mathlib

/-!
# Verification of the Zakat Tracker derived-field logic

The repository's single source file, `generate_zakat_tracker.py`, emits an
Excel workbook whose cells carry the program logic as spreadsheet formulas.
This development shallow-embeds those formulas over explicit record tables:

* `PaymentEntry` / `runTot` / `searchCount` — the Ledger sheet (columns A–I,
  the search bar in A2 and the highlight rule);
* `AssetRow` / `totalFor` — the Stocks/Cash/Debts sheets and the
  `INDEX`/`MATCH` pull used by the Zakat Summary sheet;
* `YearRow` / `deriveRow` / `deriveChain` / `summaryDerived` — the Zakat
  Summary data rows 5–14 (columns A–N);
* `hawlTracker` — the Hawl tracker block of the Zakat Summary sheet;
* `matchRows` / `detailTable` / `totalAllTypes` / `breakdownSum` — the
  Reports sheet.

Currency values are rationals; an Excel date cell is modelled by `XDate`,
carrying the numeric serial (used by comparisons, `MAX`, and `+354`) together
with the calendar year `YEAR` reports for that serial.  A blank cell of a
derived column is `Option.none`.  Status strings are abstracted to enums
(the emoji/text rendering is presentation, out of scope per the spec).
-/

set_option maxRecDepth 8000

namespace ZakatTracker

/-- An Excel date value: the numeric serial together with the calendar year
`YEAR` yields for it.  Comparisons, `MAX` and day arithmetic act on the
serial; the Reports year filter reads the year. -/
structure XDate where
  serial : Nat
  year : Nat
deriving DecidableEq, Repr

/-- One stored data row of the Ledger sheet: columns A (date), B (type),
C (service), D (given to), E (notes), F (amount), G (fees).  Blank numeric
inputs read as 0, as they do under Excel arithmetic. -/
structure PaymentEntry where
  date : Option XDate
  type : String
  service : String
  recipient : String
  notes : String
  amount : Rat
  fees : Rat
deriving DecidableEq, Repr

/-- Ledger column H: `=IF(F+G=0,"",F+G)` — blank when amount + fees is 0. -/
def totalPaid (e : PaymentEntry) : Option Rat :=
  if e.amount + e.fees = 0 then none else some (e.amount + e.fees)

/-- The number a range sum (`SUMIF`/`SUMIFS`/`SUMPRODUCT`) sees in column H:
a blank cell contributes 0. -/
def tpVal (e : PaymentEntry) : Rat := (totalPaid e).getD 0

/-- Ledger column I, the running-total chain over the column-H values.
Row 6 (the first data row) is `=IF(H="","",H)`; every later row is
`=IF(H="","",IF(I_prev="",H,I_prev+H))`.  Both are the single step
`h.map (fun v => prev.getD 0 + v)`: blank H gives a blank running total, and
a blank previous running total contributes 0 (the chain restarts). -/
def runTot (prev : Option Rat) : List (Option Rat) → List (Option Rat)
  | [] => []
  | h :: rest =>
    let cur : Option Rat := h.map (fun v => prev.getD 0 + v)
    cur :: runTot cur rest

/-- Column I of the Ledger for a given entry table, position by position. -/
def ledRunningTotals (led : List PaymentEntry) : List (Option Rat) :=
  runTot none (led.map totalPaid)

/-- One fold step of the "sum since the last blank" reading of column I. -/
def resetStep (acc : Rat) (h : Option Rat) : Rat :=
  match h with
  | some v => acc + v
  | none => 0

/-- Sum of a column-H prefix that restarts at 0 after every blank cell. -/
def resetSum (hs : List (Option Rat)) : Rat := hs.foldl resetStep 0

/-- The running total as the claim words it: the positional prefix sum of
`totalPaid` over table positions `0..i`, a blank `totalPaid` counting as 0. -/
def posPrefixSumSpec (led : List PaymentEntry) (i : Nat) : Rat :=
  ((led.take (i + 1)).map tpVal).sum

/-- Lower-cased character list of a string (Excel text matching ignores
case in `SEARCH` and in `COUNTIF` wildcards). -/
def lowered (s : String) : List Char := s.data.map Char.toLower

/-- Test `beginsWith hay needle`: `needle` is a prefix of `hay`. -/
def beginsWith : List Char → List Char → Bool
  | _, [] => true
  | [], _ :: _ => false
  | c :: cs, d :: ds => c == d && beginsWith cs ds

/-- Test `hasSub hay needle`: `needle` occurs contiguously inside `hay`. -/
def hasSub : List Char → List Char → Bool
  | [], needle => beginsWith [] needle
  | c :: t, needle => beginsWith (c :: t) needle || hasSub t needle

/-- Case-insensitive substring test, the semantics of both
`COUNTIF(range,"*"&C1&"*")` and `ISNUMBER(SEARCH(C1,cell))`. -/
def containsCI (hay needle : String) : Bool :=
  hasSub (lowered hay) (lowered needle)

/-- The count `COUNTIF(column,"*"&needle&"*")` over one ledger text column. -/
def fieldCount (led : List PaymentEntry) (f : PaymentEntry → String)
    (needle : String) : Nat :=
  (led.filter (fun e => containsCI (f e) needle)).length

/-- Ledger cell A2: blank needle shows "All entries shown" (no count);
otherwise the displayed count is the SUM of three per-column `COUNTIF`s over
Given To (D), Notes (E) and Type (B). -/
def searchCount (led : List PaymentEntry) (needle : String) : Option Nat :=
  if needle = "" then none
  else some (fieldCount led (fun e => e.recipient) needle
    + fieldCount led (fun e => e.notes) needle
    + fieldCount led (fun e => e.type) needle)

/-- The highlight rule of the Ledger's conditional format: the needle is
non-blank and `SEARCH` succeeds in column D, E or B of the row. -/
def rowMatches (needle : String) (e : PaymentEntry) : Bool :=
  containsCI e.recipient needle || containsCI e.notes needle
    || containsCI e.type needle

/-- Table positions (0-based, in ascending order) of the rows satisfying a
predicate, starting the numbering at `j`. -/
def matchRowsAux (p : PaymentEntry → Bool) (j : Nat) :
    List PaymentEntry → List Nat
  | [] => []
  | e :: rest =>
    if p e then j :: matchRowsAux p (j + 1) rest
    else matchRowsAux p (j + 1) rest

/-- Table positions of the rows satisfying a predicate. -/
def matchRows (p : PaymentEntry → Bool) (led : List PaymentEntry) : List Nat :=
  matchRowsAux p 0 led

/-- The set of highlighted row positions: empty for a blank needle (the
conditional format requires `$C$1<>""`), otherwise the rows where any of
the three text fields contains the needle. -/
def highlightPositions (led : List PaymentEntry) (needle : String) :
    List Nat :=
  if needle = "" then [] else matchRows (rowMatches needle) led

/-- How many of the three searched fields of one entry contain the needle. -/
def numFieldsMatching (needle : String) (e : PaymentEntry) : Nat :=
  (if containsCI e.recipient needle then 1 else 0)
    + (if containsCI e.notes needle then 1 else 0)
    + (if containsCI e.type needle then 1 else 0)

/-- One data row of a Stocks/Cash/Debts sheet: the date key plus the named
account balance cells (blank cells read as 0 under `SUM`). -/
structure AssetRow where
  date : Option XDate
  balances : List Rat
deriving DecidableEq, Repr

/-- Asset-sheet column H: `=SUM(B:G)` across the row's account cells. -/
def rowTotal (r : AssetRow) : Rat := r.balances.sum

/-- The Zakat Summary pull
`=IFERROR(INDEX(sheet,MATCH(date,dates,0)+3,total_col),0)`: the total of the
first sheet row whose date matches exactly, and 0 when no row matches. -/
def totalFor (sheet : List AssetRow) (d : XDate) : Rat :=
  match sheet.find? (fun r =>
      match r.date with
      | some x => x.serial == d.serial
      | none => false) with
  | some r => rowTotal r
  | none => 0

/-- One input row of the Zakat Summary sheet: column A (date), E (gold
price) and F (gold oz) are the stored inputs; everything else is derived. -/
structure YearRow where
  date : Option XDate
  goldPrice : Option Rat
  goldOz : Option Rat
deriving DecidableEq, Repr

/-- The whole workbook state the derived fields read: the three asset
sheets, the Ledger entries, the Settings slot lists, the two Nisab troy-oz
parameters (Settings!D44 and D45), and the Zakat Summary input rows. -/
structure WState where
  stocks : List AssetRow
  cash : List AssetRow
  debts : List AssetRow
  ledger : List PaymentEntry
  typeSlots : List String
  serviceSlots : List String
  recipientSlots : List String
  goldNisabOz : Rat
  silverNisabOz : Rat
  years : List YearRow
deriving DecidableEq, Repr

/-- Column M of the Zakat Summary, abstracted from its display strings
("N/A", "✅ Paid in Full", "❌ Not Started", "⚠️ Partially Paid"). -/
inductive PayStatus where
  | na
  | paidInFull
  | notStarted
  | partlyPaid
deriving DecidableEq, Repr

/-- The derived columns B–N of one Zakat Summary row. -/
structure YearDerived where
  stockT : Rat
  cashT : Rat
  debtT : Rat
  goldValue : Rat
  netAssets : Option Rat
  nisab : Rat
  zakatDue : Option Rat
  paid : Option Rat
  runBal : Option Rat
  status : Option PayStatus
  broughtFwd : Option Rat
deriving DecidableEq, Repr

/-- A `SUMIF`-style sum of column H over the Ledger rows satisfying a
predicate; blank H cells contribute 0. -/
def sumWhere (led : List PaymentEntry) (p : PaymentEntry → Bool) : Rat :=
  (led.map (fun e => if p e then tpVal e else 0)).sum

/-- The `SUMIFS` criteria of summary cell K5 (the first data row):
type "Zakat" and date `<= hi`; blank ledger dates match no comparison. -/
def isZakatInWindow (lo : Option Nat) (hi : Nat) (e : PaymentEntry) : Bool :=
  e.type == "Zakat" &&
    (match e.date with
     | none => false
     | some x =>
       (match lo with
        | none => true
        | some p => decide (p < x.serial)) && decide (x.serial ≤ hi))

/-- The `SUMIFS` criteria of summary column K below row 5: type "Zakat" and
date `> prev date` and `<= hi`.  When the previous date cell is blank the
`">"&A_prev` criterion degenerates to `">"`, which no numeric date cell
satisfies, so nothing is summed. -/
def isZakatAfterPrev (pd : Option XDate) (hi : Nat) (e : PaymentEntry) :
    Bool :=
  e.type == "Zakat" &&
    (match e.date, pd with
     | some x, some p => decide (p.serial < x.serial) && decide (x.serial ≤ hi)
     | _, _ => false)

/-- The derived columns of one Zakat Summary row.  `first` is true for row 5
(whose K/L/N formulas have no previous-row references); `pd` and `pl` are
the previous row's date cell (column A) and running balance cell (column L).

Blank-date rows: B/C/D still evaluate (their `MATCH` misses, `IFERROR`
gives 0), G evaluates, I is 0 by its `OR(A="",E="")` guard, and H, J, K, L,
M, N are all blank by their `IF(A="","",...)` guards. -/
def deriveRow (st : WState) (first : Bool) (pd : Option XDate)
    (pl : Option Rat) (r : YearRow) : YearDerived :=
  let g : Rat :=
    match r.goldPrice, r.goldOz with
    | some p, some oz => p * oz
    | _, _ => 0
  match r.date with
  | none => ⟨0, 0, 0, g, none, 0, none, none, none, none, none⟩
  | some a =>
    let b := totalFor st.stocks a
    let c := totalFor st.cash a
    let d := totalFor st.debts a
    let nis : Rat :=
      match r.goldPrice with
      | some p => p * st.goldNisabOz
      | none => 0
    let hv := b + c + g - d
    let jv : Rat := if hv ≥ nis then hv * (25 / 1000) else 0
    let kv : Rat :=
      if first then sumWhere st.ledger (isZakatInWindow none a.serial)
      else sumWhere st.ledger (isZakatAfterPrev pd a.serial)
    let lv : Rat :=
      if first then jv - kv
      else jv - kv +
        (match pd, pl with
         | some _, some plv => plv
         | _, _ => 0)
    let mv : PayStatus :=
      if jv = 0 then PayStatus.na
      else if lv ≤ 0 then PayStatus.paidInFull
      else if kv = 0 then PayStatus.notStarted
      else PayStatus.partlyPaid
    let nv : Rat :=
      if first then 0
      else
        match pl with
        | some plv => max 0 plv
        | none => 0
    ⟨b, c, d, g, some hv, nis, some jv, some kv, some lv, some mv, some nv⟩

/-- Row-by-row evaluation of the Zakat Summary data rows, threading each
row's date cell and running balance into the next row's formulas. -/
def deriveChain (st : WState) (first : Bool) (pd : Option XDate)
    (pl : Option Rat) : List YearRow → List YearDerived
  | [] => []
  | r :: rest =>
    let dr := deriveRow st first pd pl r
    dr :: deriveChain st false r.date dr.runBal rest

/-- The derived columns of all Zakat Summary rows, in table order. -/
def summaryDerived (st : WState) : List YearDerived :=
  deriveChain st true none none st.years

/-- The Hawl tracker status cell, abstracted from its display strings
("🕌 Zakat Due Now!", "⚠️ Due Soon (< 30 days)", "✅ Hawl in progress"). -/
inductive HawlStatus where
  | dueNow
  | dueSoon
  | inProgress
deriving DecidableEq, Repr

/-- The four derived Hawl tracker cells.  `none` in `lastDate` is the
"No dates yet" sentinel; the other three are blank exactly then. -/
structure HawlInfo where
  lastDate : Option Nat
  nextDue : Option Nat
  daysRemaining : Option Int
  status : Option HawlStatus
deriving DecidableEq, Repr

/-- The serials of the non-blank summary date cells (what `COUNTA` counts
and `MAX` ranges over in A5:A14). -/
def dateSerials (years : List YearRow) : List Nat :=
  years.filterMap (fun r => r.date.map (fun x => x.serial))

/-- Cell `=IF(COUNTA(A5:A14)=0,"No dates yet",MAX(A5:A14))` of the tracker. -/
def lastSerial (years : List YearRow) : Option Nat :=
  match dateSerials years with
  | [] => none
  | d :: rest => some (rest.foldl max d)

/-- The Hawl tracker block: next due = last date + 354 days, remaining days
clamped at 0, and the three-way status with the 30-day boundary. -/
def hawlTracker (years : List YearRow) (today : Nat) : HawlInfo :=
  match lastSerial years with
  | none => ⟨none, none, none, none⟩
  | some ld =>
    let nd := ld + 354
    let diff : Int := (nd : Int) - (today : Int)
    ⟨some ld, some nd, some (max 0 diff),
      some (if (today : Int) > (nd : Int) then HawlStatus.dueNow
        else if diff ≤ 30 then HawlStatus.dueSoon
        else HawlStatus.inProgress)⟩

/-- The Reports year criterion: cell C5 is either the "All Years" sentinel
(`none`, every row passes) or a specific year compared with `YEAR(date)`. -/
def yearMatch (yf : Option Nat) (e : PaymentEntry) : Bool :=
  match yf with
  | none => true
  | some y =>
    match e.date with
    | some x => x.year == y
    | none => false

/-- The shared Reports row predicate: Given To equals the selected
recipient (cell C4) and the year criterion passes. -/
def matchPred (r : String) (yf : Option Nat) (e : PaymentEntry) : Bool :=
  e.recipient == r && yearMatch yf e

/-- The Reports "TOTAL (all types)" aggregate (row 39): column-H sum over
the recipient-and-year predicate alone. -/
def totalAllTypes (led : List PaymentEntry) (r : String) (yf : Option Nat) :
    Rat :=
  sumWhere led (matchPred r yf)

/-- One Reports breakdown row (rows 8–37): the column-H sum additionally
requiring the entry's type to equal the given Settings type slot. -/
def breakdownRow (led : List PaymentEntry) (r : String) (yf : Option Nat)
    (slot : String) : Rat :=
  sumWhere led (fun e => matchPred r yf e && e.type == slot)

/-- The sum of all rendered breakdown rows: blank type slots produce no row
and contribute nothing. -/
def breakdownSum (led : List PaymentEntry) (slots : List String) (r : String)
    (yf : Option Nat) : Rat :=
  (slots.map (fun s => if s = "" then 0 else breakdownRow led r yf s)).sum

/-- How many non-blank Settings type slots hold exactly the given type. -/
def occCount (slots : List String) (t : String) : Nat :=
  (slots.filter (fun s => (s != "") && (s == t))).length

/-- The Reports detail table (rows 42–141): the `k`-th displayed row reads
helper cell `L`, which is `SMALL` applied to the matching row positions at
rank `k+1` — i.e. the `k`-th element of the ascending matching-position
list — and then `INDEX`es every Ledger column at that position; a blank
helper cell renders the row blank. -/
def detailTable (led : List PaymentEntry) (r : String) (yf : Option Nat) :
    List (Option PaymentEntry) :=
  (List.range 100).map (fun k =>
    ((matchRows (matchPred r yf) led).get? k).bind (fun idx => led.get? idx))

/-- Settings cell D50, the silver half of the standalone Nisab calculator:
`=IF(B49=0,"","Silver Nisab = "&TEXT(F49*$D$45,...))`, abstracted to the
displayed silver-Nisab amount. -/
def silverNisabDisplay (st : WState) (goldPriceToday silverPriceToday : Rat) :
    Option Rat :=
  if goldPriceToday = 0 then none
  else some (silverPriceToday * st.silverNisabOz)

/-! ### Concrete workbook states used to instantiate the theorems -/

/-- A sample date: serial 100, year 2023. -/
def exDate0 : XDate := ⟨100, 2023⟩

/-- A sample date one Zakat year later: serial 454, year 2024. -/
def exDate1 : XDate := ⟨454, 2024⟩

/-- A sample Ledger: two Zakat payments before `exDate0`, one later
Sadaqah payment. -/
def exLedger : List PaymentEntry :=
  [⟨some ⟨50, 2023⟩, "Zakat", "Wise", "Local Mosque", "first payment", 200, 0⟩,
   ⟨some ⟨90, 2023⟩, "Zakat", "Remitly", "Zakat Foundation", "second", 100, 0⟩,
   ⟨some ⟨300, 2024⟩, "Sadaqah", "Cash", "Local Mosque", "mosque fund", 50, 5⟩]

/-- Summary input row 5 of the sample workbook. -/
def exYear0 : YearRow := ⟨some exDate0, some 3000, some (1 / 2)⟩

/-- Summary input row 6 of the sample workbook. -/
def exYear1 : YearRow := ⟨some exDate1, some 3000, some (1 / 2)⟩

/-- A sample workbook state matching the spec's worked example: stocks
10000, cash 5000, debts 2000, gold 0.5 oz at 3000/oz, default Nisab oz. -/
def exSt : WState where
  stocks := [⟨some exDate0, [10000, 0, 0, 0, 0, 0]⟩]
  cash := [⟨some exDate0, [5000, 0, 0, 0, 0, 0]⟩]
  debts := [⟨some exDate0, [2000, 0, 0, 0, 0, 0]⟩]
  ledger := exLedger
  typeSlots := ["Zakat", "Sadaqah", "Fitrana", "Qurbani"]
  serviceSlots := ["Remitly", "Wise", "Bank Transfer", "Cash", "Zelle"]
  recipientSlots := ["Islamic Relief USA", "Zakat Foundation", "LaunchGood",
    "Local Mosque", "Family Member"]
  goldNisabOz := 27315 / 10000
  silverNisabOz := 191358 / 10000
  years := [exYear0, exYear1]

/-- The derived first summary row of `exSt`. -/
def exRec0 : YearDerived := deriveRow exSt true none none exYear0

/-- The derived second summary row of `exSt`. -/
def exRec1 : YearDerived :=
  deriveRow exSt false exYear0.date exRec0.runBal exYear1

/-- A Ledger with a blank `totalPaid` gap between two paid rows: amounts
10, then 0 (column H blank), then 5. -/
def c1Led : List PaymentEntry :=
  [⟨some ⟨10, 2023⟩, "Zakat", "Wise", "A", "", 10, 0⟩,
   ⟨some ⟨20, 2023⟩, "Zakat", "Wise", "B", "", 0, 0⟩,
   ⟨some ⟨5, 2023⟩, "Zakat", "Wise", "C", "", 5, 0⟩]

/-- The third entry of `c1Led`. -/
def c1e3 : PaymentEntry := ⟨some ⟨5, 2023⟩, "Zakat", "Wise", "C", "", 5, 0⟩

/-- A workbook whose only obligation row has zero due and a 100 Zakat
payment, so its running balance is −100 and stays negative. -/
def exNegSt : WState where
  stocks := []
  cash := []
  debts := []
  ledger := [⟨some ⟨900, 2024⟩, "Zakat", "Wise", "Local Mosque", "", 100, 0⟩]
  typeSlots := ["Zakat"]
  serviceSlots := ["Wise"]
  recipientSlots := ["Local Mosque"]
  goldNisabOz := 27315 / 10000
  silverNisabOz := 191358 / 10000
  years := [⟨some ⟨1000, 2024⟩, none, none⟩, ⟨some ⟨1100, 2024⟩, none, none⟩]

/-- A workbook whose first row carries a positive running balance (4000 of
assets, zero Nisab threshold, no payments) and whose second row has a
blank date. -/
def exC5St : WState where
  stocks := [⟨some ⟨1000, 2024⟩, [4000]⟩]
  cash := []
  debts := []
  ledger := []
  typeSlots := ["Zakat"]
  serviceSlots := ["Wise"]
  recipientSlots := ["Local Mosque"]
  goldNisabOz := 27315 / 10000
  silverNisabOz := 191358 / 10000
  years := [⟨some ⟨1000, 2024⟩, none, none⟩, ⟨none, none, none⟩]

/-- The derived first summary row of `exC5St`. -/
def exC5r0 : YearDerived := deriveRow exC5St true none none ⟨some ⟨1000, 2024⟩, none, none⟩

/-- The derived second (blank-date) summary row of `exC5St`. -/
def exC5r1 : YearDerived :=
  deriveRow exC5St false (some ⟨1000, 2024⟩) exC5r0.runBal ⟨none, none, none⟩

/-- A one-entry Ledger whose entry contains "mosque" in both the Given To
and the Notes fields. -/
def c6Led : List PaymentEntry :=
  [⟨some ⟨300, 2024⟩, "Sadaqah", "Cash", "Local Mosque", "mosque fund", 50, 5⟩]

/-- A one-entry Ledger whose entry's type "Other" is listed in no Settings
type slot. -/
def c10Led : List PaymentEntry :=
  [⟨some ⟨10, 2024⟩, "Other", "Wise", "Bob", "", 50, 0⟩]

/-- Settings type slots that do not list "Other". -/
def c10Slots : List String := ["Zakat", "Sadaqah", "Fitrana", "Qurbani", ""]

/-- Function `totalPaid` expressed on the amount/fees pair alone. -/
def tpPair (p : Rat × Rat) : Option Rat :=
  if p.1 + p.2 = 0 then none else some (p.1 + p.2)

/-! ### Supporting lemmas -/

theorem sum_map_add {α M : Type} [AddCommMonoid M] (l : List α)
    (f g : α → M) :
    (l.map (fun x => f x + g x)).sum = (l.map f).sum + (l.map g).sum := by
  induction l with
  | nil => simp
  | cons a t ih =>
    simp only [List.map_cons, List.sum_cons, ih]
    exact add_add_add_comm _ _ _ _

theorem sum_map_congr {α M : Type} [AddCommMonoid M] {l : List α}
    {f g : α → M} (h : ∀ x ∈ l, f x = g x) :
    (l.map f).sum = (l.map g).sum := by
  induction l with
  | nil => rfl
  | cons a t ih =>
    simp only [List.map_cons, List.sum_cons]
    rw [h a (List.mem_cons_self a t), ih (fun x hx => h x (List.mem_cons_of_mem a hx))]

theorem sum_map_le {α : Type} {l : List α} {f g : α → Nat}
    (h : ∀ x ∈ l, f x ≤ g x) : (l.map f).sum ≤ (l.map g).sum := by
  induction l with
  | nil => simp
  | cons a t ih =>
    simp only [List.map_cons, List.sum_cons]
    exact Nat.add_le_add (h a (List.mem_cons_self a t))
      (ih (fun x hx => h x (List.mem_cons_of_mem a hx)))

theorem filter_length_eq_sum {α : Type} (l : List α) (p : α → Bool) :
    (l.filter p).length = (l.map (fun x => if p x then 1 else 0)).sum := by
  induction l with
  | nil => rfl
  | cons a t ih =>
    by_cases hp : p a
    · simp [List.filter_cons, hp, ih, Nat.add_comm]
    · simp [List.filter_cons, hp, ih]

theorem range_map_get? {α : Type} (l : List α) (n : Nat) :
    (List.range n).map l.get? =
      (l.take n).map some ++ List.replicate (n - l.length) none := by
  induction l generalizing n with
  | nil =>
    simp only [List.take_nil, List.map_nil, List.nil_append, List.length_nil,
      Nat.sub_zero]
    induction n with
    | zero => rfl
    | succ m ihm => simp [List.range_succ, ihm, List.replicate_succ']
  | cons a t ih =>
    cases n with
    | zero => simp
    | succ m =>
      rw [List.range_succ_eq_map]
      simp only [List.map_cons, List.map_map, List.length_cons,
        Nat.succ_sub_succ, List.take_succ_cons, List.cons_append]
      rw [← ih m]
      apply congrArg (List.cons _)
      apply List.map_congr_left
      intro i _
      rfl

theorem matchRowsAux_le {p : PaymentEntry → Bool} :
    ∀ (l : List PaymentEntry) (j x : Nat), x ∈ matchRowsAux p j l → j ≤ x := by
  intro l
  induction l with
  | nil => intro j x hx; cases hx
  | cons e t ih =>
    intro j x hx
    by_cases hp : p e
    · simp only [matchRowsAux, if_pos hp, List.mem_cons] at hx
      rcases hx with h | h
      · omega
      · have := ih (j + 1) x h
        omega
    · simp only [matchRowsAux, if_neg hp] at hx
      have := ih (j + 1) x hx
      omega

theorem matchRowsAux_get?_bind {p : PaymentEntry → Bool} :
    ∀ (l : List PaymentEntry) (j k : Nat),
      ((matchRowsAux p j l).get? k).bind (fun idx => l.get? (idx - j)) =
        (l.filter p).get? k := by
  intro l
  induction l with
  | nil => intro j k; rfl
  | cons e t ih =>
    intro j k
    by_cases hp : p e
    · simp only [matchRowsAux, if_pos hp, List.filter_cons, hp, if_pos]
      cases k with
      | zero => simp
      | succ m =>
        simp only [List.get?_cons_succ]
        rw [← ih (j + 1) m]
        cases hidx : (matchRowsAux p (j + 1) t).get? m with
        | none => rfl
        | some idx =>
          have hle : j + 1 ≤ idx := matchRowsAux_le t (j + 1) idx (List.get?_mem hidx)
          have h1 : idx - j = (idx - (j + 1)) + 1 := by omega
          show (e :: t).get? (idx - j) = t.get? (idx - (j + 1))
          rw [h1]
          rfl
    · simp only [matchRowsAux, if_neg hp, List.filter_cons]
      rw [← ih (j + 1) k]
      cases hidx : (matchRowsAux p (j + 1) t).get? k with
      | none => rfl
      | some idx =>
        have hle : j + 1 ≤ idx := matchRowsAux_le t (j + 1) idx (List.get?_mem hidx)
        have h1 : idx - j = (idx - (j + 1)) + 1 := by omega
        show (e :: t).get? (idx - j) = t.get? (idx - (j + 1))
        rw [h1]
        rfl

theorem matchRows_get?_bind (p : PaymentEntry → Bool) (l : List PaymentEntry)
    (k : Nat) :
    ((matchRows p l).get? k).bind (fun idx => l.get? idx) =
      (l.filter p).get? k := by
  have h := @matchRowsAux_get?_bind p l 0 k
  simpa only [Nat.sub_zero] using h

theorem matchRowsAux_sorted {p : PaymentEntry → Bool} :
    ∀ (l : List PaymentEntry) (j : Nat),
      (matchRowsAux p j l).Pairwise (fun a b => a < b) := by
  intro l
  induction l with
  | nil => intro j; exact List.Pairwise.nil
  | cons e t ih =>
    intro j
    by_cases hp : p e
    · simp only [matchRowsAux, if_pos hp]
      refine List.Pairwise.cons ?_ (ih (j + 1))
      intro x hx
      have := matchRowsAux_le t (j + 1) x hx
      omega
    · simp only [matchRowsAux, if_neg hp]
      exact ih (j + 1)

theorem matchRowsAux_length {p : PaymentEntry → Bool} :
    ∀ (l : List PaymentEntry) (j : Nat),
      (matchRowsAux p j l).length = (l.filter p).length := by
  intro l
  induction l with
  | nil => intro j; rfl
  | cons e t ih =>
    intro j
    by_cases hp : p e
    · simp [matchRowsAux, if_pos hp, List.filter_cons, hp, ih (j + 1)]
    · simp [matchRowsAux, if_neg hp, List.filter_cons, hp, ih (j + 1)]

theorem runTot_get? :
    ∀ (hs : List (Option Rat)) (prev : Option Rat) (i : Nat) (h : Option Rat),
      hs.get? i = some h →
      (runTot prev hs).get? i =
        some (h.map (fun _ => (hs.take (i + 1)).foldl resetStep (prev.getD 0))) := by
  intro hs
  induction hs with
  | nil => intro prev i h hget; cases hget
  | cons h0 rest ih =>
    intro prev i h hget
    cases i with
    | zero =>
      rw [List.get?_cons_zero] at hget
      cases hget
      cases h0 with
      | none => rfl
      | some v => rfl
    | succ m =>
      rw [List.get?_cons_succ] at hget
      have step : (runTot prev (h0 :: rest)).get? (m + 1) =
          (runTot (h0.map (fun v => prev.getD 0 + v)) rest).get? m := rfl
      rw [step, ih _ m h hget]
      have hacc : (h0.map (fun v => prev.getD 0 + v)).getD 0 =
          resetStep (prev.getD 0) h0 := by
        cases h0 <;> rfl
      rw [hacc]
      rfl

theorem sumWhere_eq_filter (led : List PaymentEntry) (p : PaymentEntry → Bool) :
    sumWhere led p = ((led.filter p).map tpVal).sum := by
  induction led with
  | nil => rfl
  | cons e t ih =>
    by_cases hp : p e
    · simp [sumWhere, List.filter_cons, hp] at ih ⊢
      rw [ih]
    · simp [sumWhere, List.filter_cons, hp] at ih ⊢
      rw [ih]

theorem deriveChain_head (st : WState) (first : Bool) (pd : Option XDate)
    (pl : Option Rat) (rows : List YearRow) (rec : YearDerived)
    (h : (deriveChain st first pd pl rows).get? 0 = some rec) :
    ∃ r rest, rows = r :: rest ∧ rec = deriveRow st first pd pl r := by
  cases rows with
  | nil => cases h
  | cons r rest =>
    refine ⟨r, rest, rfl, ?_⟩
    have : (deriveChain st first pd pl (r :: rest)).get? 0 =
        some (deriveRow st first pd pl r) := rfl
    rw [this] at h
    exact (Option.some.inj h).symm

theorem deriveChain_shape (st : WState) :
    ∀ (rows : List YearRow) (first : Bool) (pd : Option XDate)
      (pl : Option Rat) (i : Nat) (rec : YearDerived),
      (deriveChain st first pd pl rows).get? i = some rec →
      ∃ row first' pd' pl', rows.get? i = some row ∧
        rec = deriveRow st first' pd' pl' row := by
  intro rows
  induction rows with
  | nil => intro first pd pl i rec h; cases h
  | cons r rest ih =>
    intro first pd pl i rec h
    cases i with
    | zero =>
      obtain ⟨r', rest', heq, hrec⟩ := deriveChain_head st first pd pl _ rec h
      cases heq
      exact ⟨r, first, pd, pl, rfl, hrec⟩
    | succ m =>
      have hstep : (deriveChain st first pd pl (r :: rest)).get? (m + 1) =
          (deriveChain st false r.date (deriveRow st first pd pl r).runBal
            rest).get? m := rfl
      rw [hstep] at h
      obtain ⟨row, f', pd', pl', hrow, hrec⟩ := ih _ _ _ m rec h
      exact ⟨row, f', pd', pl', hrow, hrec⟩

theorem deriveChain_consec (st : WState) :
    ∀ (rows : List YearRow) (first : Bool) (pd : Option XDate)
      (pl : Option Rat) (i : Nat) (rec : YearDerived),
      (deriveChain st first pd pl rows).get? (i + 1) = some rec →
      ∃ prevRow row prevRec,
        rows.get? i = some prevRow ∧
        rows.get? (i + 1) = some row ∧
        (deriveChain st first pd pl rows).get? i = some prevRec ∧
        rec = deriveRow st false prevRow.date prevRec.runBal row := by
  intro rows
  induction rows with
  | nil => intro first pd pl i rec h; cases h
  | cons r rest ih =>
    intro first pd pl i rec h
    have hstep : (deriveChain st first pd pl (r :: rest)).get? (i + 1) =
        (deriveChain st false r.date (deriveRow st first pd pl r).runBal
          rest).get? i := rfl
    rw [hstep] at h
    cases i with
    | zero =>
      obtain ⟨r1, rest1, heq, hrec⟩ :=
        deriveChain_head st false r.date
          (deriveRow st first pd pl r).runBal rest rec h
      cases heq
      exact ⟨r, r1, deriveRow st first pd pl r, rfl, rfl, rfl, hrec⟩
    | succ m =>
      obtain ⟨prevRow, row, prevRec, h1, h2, h3, h4⟩ := ih _ _ _ m rec h
      exact ⟨prevRow, row, prevRec, h1, h2, h3, h4⟩

theorem deriveRow_date_none (st : WState) (first : Bool) (pd : Option XDate)
    (pl : Option Rat) (r : YearRow) (h : r.date = none) :
    deriveRow st first pd pl r =
      ⟨0, 0, 0,
        (match r.goldPrice, r.goldOz with
         | some p, some oz => p * oz
         | _, _ => 0),
        none, 0, none, none, none, none, none⟩ := by
  obtain ⟨rd, rp, ro⟩ := r
  cases rd with
  | none => rfl
  | some a => exact Option.noConfusion h

theorem deriveRow_date_some (st : WState) (first : Bool) (pd : Option XDate)
    (pl : Option Rat) (r : YearRow) (a : XDate) (h : r.date = some a) :
    ∃ jv kv lv,
      (deriveRow st first pd pl r).zakatDue = some jv ∧
      (deriveRow st first pd pl r).paid = some kv ∧
      (deriveRow st first pd pl r).runBal = some lv ∧
      kv = (if first then sumWhere st.ledger (isZakatInWindow none a.serial)
        else sumWhere st.ledger (isZakatAfterPrev pd a.serial)) ∧
      lv = (if first then jv - kv
        else jv - kv +
          (match pd, pl with
           | some _, some plv => plv
           | _, _ => 0)) ∧
      (deriveRow st first pd pl r).status =
        some (if jv = 0 then PayStatus.na
          else if lv ≤ 0 then PayStatus.paidInFull
          else if kv = 0 then PayStatus.notStarted
          else PayStatus.partlyPaid) ∧
      (deriveRow st first pd pl r).broughtFwd =
        some (if first then 0
          else
            match pl with
            | some plv => max 0 plv
            | none => 0) := by
  obtain ⟨rd, rp, ro⟩ := r
  cases rd with
  | none => exact Option.noConfusion h
  | some a0 =>
    have ha : a0 = a := Option.some.inj h
    subst ha
    exact ⟨_, _, _, rfl, rfl, rfl, rfl, rfl, rfl, rfl⟩

theorem le_foldl_max : ∀ (l : List Nat) (a : Nat), a ≤ l.foldl max a := by
  intro l
  induction l with
  | nil => intro a; exact Nat.le_refl a
  | cons x t ih =>
    intro a
    have h1 : a ≤ max a x := Nat.le_max_left a x
    exact Nat.le_trans h1 (ih (max a x))

theorem foldl_max_le_of_mem :
    ∀ (l : List Nat) (a x : Nat), x ∈ l → x ≤ l.foldl max a := by
  intro l
  induction l with
  | nil => intro a x hx; cases hx
  | cons y t ih =>
    intro a x hx
    rcases List.mem_cons.mp hx with h | h
    · subst h
      exact Nat.le_trans (Nat.le_max_right a x) (le_foldl_max t (max a x))
    · rw [List.foldl_cons]
      exact ih (max a y) x h

theorem foldl_max_mem :
    ∀ (l : List Nat) (a : Nat), l.foldl max a = a ∨ l.foldl max a ∈ l := by
  intro l
  induction l with
  | nil => intro a; exact Or.inl rfl
  | cons y t ih =>
    intro a
    rcases ih (max a y) with h | h
    · rcases Nat.le_total a y with hay | hya
      · right
        rw [List.foldl_cons, h, Nat.max_eq_right hay]
        exact List.mem_cons_self y t
      · left
        rw [List.foldl_cons, h, Nat.max_eq_left hya]
    · right
      rw [List.foldl_cons]
      exact List.mem_cons_of_mem y h

theorem deriveRow_silver (st : WState) (x : Rat) (first : Bool)
    (pd : Option XDate) (pl : Option Rat) (r : YearRow) :
    deriveRow { st with silverNisabOz := x } first pd pl r =
      deriveRow st first pd pl r := by
  cases st
  rfl

theorem deriveChain_silver (st : WState) (x : Rat) :
    ∀ (rows : List YearRow) (first : Bool) (pd : Option XDate)
      (pl : Option Rat),
      deriveChain { st with silverNisabOz := x } first pd pl rows =
        deriveChain st first pd pl rows := by
  intro rows
  induction rows with
  | nil => intro first pd pl; rfl
  | cons r rest ih =>
    intro first pd pl
    simp only [deriveChain, deriveRow_silver, ih]

theorem afterPrev_eq_window (p : XDate) (hi : Nat) (e : PaymentEntry) :
    isZakatAfterPrev (some p) hi e = isZakatInWindow (some p.serial) hi e := by
  unfold isZakatAfterPrev isZakatInWindow
  cases hd : e.date with
  | none => simp [hd]
  | some x => simp [hd]

theorem map_totalPaid_eq_pair (led : List PaymentEntry) :
    led.map totalPaid =
      (led.map (fun e => (e.amount, e.fees))).map tpPair := by
  rw [List.map_map]
  rfl

theorem occCount_cons (s : String) (slots : List String) (t : String) :
    occCount (s :: slots) t =
      (if (s != "") && (s == t) then 1 else 0) + occCount slots t := by
  simp only [occCount, List.filter_cons]
  by_cases hq : ((s != "") && (s == t)) = true
  · rw [if_pos hq, if_pos hq, List.length_cons]
    omega
  · rw [if_neg hq, if_neg hq]
    omega

theorem breakdownSum_swap :
    ∀ (slots : List String) (led : List PaymentEntry) (r : String)
      (yf : Option Nat),
      breakdownSum led slots r yf =
        (led.map (fun e =>
          if matchPred r yf e then (occCount slots e.type : Rat) * tpVal e
          else 0)).sum := by
  intro slots
  induction slots with
  | nil =>
    intro led r yf
    have hz : ∀ e ∈ led,
        (if matchPred r yf e then (occCount [] e.type : Rat) * tpVal e
          else 0) = (0 : Rat) := by
      intro e _
      by_cases hm : matchPred r yf e <;> simp [hm, occCount]
    rw [sum_map_congr hz]
    simp [breakdownSum]
  | cons s slots ih =>
    intro led r yf
    have hsplit : ∀ e ∈ led,
        (if matchPred r yf e then (occCount (s :: slots) e.type : Rat) * tpVal e
          else 0) =
        (if matchPred r yf e then
            (if (s != "") && (s == e.type) then (1 : Rat) else 0) * tpVal e
          else 0) +
        (if matchPred r yf e then (occCount slots e.type : Rat) * tpVal e
          else 0) := by
      intro e _
      by_cases hm : matchPred r yf e
      · simp only [hm, if_pos, occCount_cons]
        push_cast
        by_cases hq : ((s != "") && (s == e.type)) = true
        · simp [hq]
          ring
        · simp [hq]
      · simp [hm]
    rw [sum_map_congr hsplit, sum_map_add]
    have hfirst :
        (led.map (fun e =>
          if matchPred r yf e then
            (if (s != "") && (s == e.type) then (1 : Rat) else 0) * tpVal e
          else 0)).sum =
        (if s = "" then 0 else breakdownRow led r yf s) := by
      by_cases hs : s = ""
      · subst hs
        have hz : ∀ e ∈ led,
            (if matchPred r yf e then
              (if (("" : String) != "") && (("" : String) == e.type) then (1 : Rat) else 0)
                * tpVal e
            else 0) = (0 : Rat) := by
          intro e _
          by_cases hm : matchPred r yf e <;> simp [hm]
        rw [sum_map_congr hz]
        simp
      · have hterm : ∀ e ∈ led,
            (if matchPred r yf e then
              (if (s != "") && (s == e.type) then (1 : Rat) else 0) * tpVal e
            else 0) =
            (if matchPred r yf e && (e.type == s) then tpVal e else 0) := by
          intro e _
          have hs' : (s != "") = true := by
            simp [bne_iff_ne, hs]
          by_cases hm : matchPred r yf e
          · by_cases ht : s = e.type
            · have h1 : (s == e.type) = true := by
                rw [beq_iff_eq]
                exact ht
              have h2 : (e.type == s) = true := by
                rw [beq_iff_eq]
                exact ht.symm
              simp [hm, hs', h1, h2]
            · have ht1 : (s == e.type) = false := by
                rw [beq_eq_false_iff_ne]
                exact ht
              have ht2 : (e.type == s) = false := by
                rw [beq_eq_false_iff_ne]
                exact Ne.symm ht
              simp [hm, hs', ht1, ht2]
          · have hm' : matchPred r yf e = false := by
              simp [Bool.not_eq_true] at hm
              exact hm
            simp [hm']
        rw [sum_map_congr hterm]
        rw [if_neg hs]
        rfl
    rw [hfirst, ← ih led r yf]
    simp [breakdownSum, List.map_cons, List.sum_cons]

theorem indicator_le_numFields (needle : String) (e : PaymentEntry) :
    (if rowMatches needle e then 1 else 0) ≤ numFieldsMatching needle e := by
  unfold rowMatches numFieldsMatching
  cases hr : containsCI e.recipient needle <;>
    cases hn : containsCI e.notes needle <;>
    cases ht : containsCI e.type needle <;>
    simp

theorem indicator_eq_numFields (needle : String) (e : PaymentEntry)
    (h : numFieldsMatching needle e ≤ 1) :
    numFieldsMatching needle e = if rowMatches needle e then 1 else 0 := by
  unfold numFieldsMatching at h ⊢
  unfold rowMatches
  cases hr : containsCI e.recipient needle <;>
    cases hn : containsCI e.notes needle <;>
    cases ht : containsCI e.type needle <;>
    simp_all

/-! ### The claims -/

/-- C1 (counterexample): the claim's positional-prefix-sum reading of the
Ledger running total fails on the code: with totalPaid values 10, blank, 5
the column-I chain restarts after the blank, giving 5 at position 2 where
the claimed prefix sum is 15. -/
theorem c1_runningTotal_counterexample :
    (ledRunningTotals c1Led).get? 2 = some (some 5) ∧
    posPrefixSumSpec c1Led 2 = 15 ∧
    (ledRunningTotals c1Led).get? 2 ≠
      some (some (posPrefixSumSpec c1Led 2)) := by
  exact ⟨by with_unfolding_all decide, by with_unfolding_all decide,
    by with_unfolding_all decide⟩

/-- C1 (amended): the Ledger running total at position `i` is blank when
that row's totalPaid is blank, and otherwise equals the sum of totalPaid
over the contiguous non-blank run ending at `i` — the chain restarts after
every blank-totalPaid row instead of accumulating across it (`resetSum`).
It is still positional: it depends only on the amount/fees sequence, never
on dates or date order, and at position 0 it equals totalPaid(0). -/
theorem c1_runningTotal_amended :
    (∀ (led : List PaymentEntry) (i : Nat) (e : PaymentEntry),
      led.get? i = some e →
      (ledRunningTotals led).get? i =
        some ((totalPaid e).map
          (fun _ => resetSum ((led.map totalPaid).take (i + 1))))) ∧
    (∀ led led' : List PaymentEntry,
      led.map (fun e => (e.amount, e.fees)) =
        led'.map (fun e => (e.amount, e.fees)) →
      ledRunningTotals led = ledRunningTotals led') := by
  constructor
  · intro led i e h
    have hmap : (led.map totalPaid).get? i = some (totalPaid e) := by
      rw [List.get?_map, h]
      rfl
    have hrun := runTot_get? (led.map totalPaid) none i (totalPaid e) hmap
    rw [ledRunningTotals, hrun]
    rfl
  · intro led led' h
    unfold ledRunningTotals
    rw [map_totalPaid_eq_pair, map_totalPaid_eq_pair, h]

/-- C1 (witness): the amended statement evaluated at the concrete gapped
ledger, position 2. -/
theorem c1_runningTotal_amended_witness :
    (ledRunningTotals c1Led).get? 2 =
      some ((totalPaid c1e3).map
        (fun _ => resetSum ((c1Led.map totalPaid).take 3))) :=
  c1_runningTotal_amended.1 c1Led 2 c1e3 rfl

/-- C2: for every summary record with a non-blank date (equivalently, whose
derived J/K/L cells are non-blank), the status cell follows the precedence
zakatDue = 0 → N/A, else runningBalance ≤ 0 → PaidInFull, else
paidThisPeriod = 0 → NotStarted, else PartiallyPaid. -/
theorem c2_status_precedence (st : WState) (i : Nat) (rec : YearDerived)
    (j k l : Rat)
    (hrec : (summaryDerived st).get? i = some rec)
    (hj : rec.zakatDue = some j)
    (hk : rec.paid = some k)
    (hl : rec.runBal = some l) :
    rec.status = some (if j = 0 then PayStatus.na
      else if l ≤ 0 then PayStatus.paidInFull
      else if k = 0 then PayStatus.notStarted
      else PayStatus.partlyPaid) := by
  obtain ⟨row, f', pd', pl', hrow, hdr⟩ :=
    deriveChain_shape st st.years true none none i rec hrec
  cases hd : row.date with
  | none =>
    rw [hdr, deriveRow_date_none st f' pd' pl' row hd] at hj
    cases hj
  | some a =>
    obtain ⟨jv, kv, lv, hz, hp, hr, _, _, hs, _⟩ :=
      deriveRow_date_some st f' pd' pl' row a hd
    rw [hdr] at hj hk hl ⊢
    rw [hz] at hj
    rw [hp] at hk
    rw [hr] at hl
    have hj' := Option.some.inj hj
    have hk' := Option.some.inj hk
    have hl' := Option.some.inj hl
    subst hj'
    subst hk'
    subst hl'
    exact hs

/-- C2 (witness): the precedence theorem applied to the first summary row
of the sample workbook (due 362.50, paid 300, balance 62.50). -/
theorem c2_status_precedence_witness :
    exRec0.status = some (if (725 / 2 : Rat) = 0 then PayStatus.na
      else if (125 / 2 : Rat) ≤ 0 then PayStatus.paidInFull
      else if (300 : Rat) = 0 then PayStatus.notStarted
      else PayStatus.partlyPaid) :=
  c2_status_precedence exSt 0 exRec0 (725 / 2) 300 (125 / 2) rfl
    (by with_unfolding_all decide) (by with_unfolding_all decide)
    (by with_unfolding_all decide)

/-- C3: the running-balance recurrence.  At position 0 it is
zakatDue − paidThisPeriod; at position i+1 it adds the previous row's
running balance, contributing 0 when the previous date or balance cell is
blank.  The recurrence is unclamped: in the concrete state `exNegSt` the
balance is −100 at row 0 and stays −100 at row 1. -/
theorem c3_runningBalance :
    (∀ (st : WState) (rec : YearDerived) (j k : Rat),
      (summaryDerived st).get? 0 = some rec →
      rec.zakatDue = some j → rec.paid = some k →
      rec.runBal = some (j - k)) ∧
    (∀ (st : WState) (i : Nat) (rec prevRec : YearDerived)
      (prevRow : YearRow) (j k : Rat),
      (summaryDerived st).get? (i + 1) = some rec →
      st.years.get? i = some prevRow →
      (summaryDerived st).get? i = some prevRec →
      rec.zakatDue = some j → rec.paid = some k →
      rec.runBal = some (j - k +
        (match prevRow.date, prevRec.runBal with
         | some _, some plv => plv
         | _, _ => 0))) ∧
    (Option.bind ((summaryDerived exNegSt).get? 0) YearDerived.runBal =
        some (-100) ∧
      Option.bind ((summaryDerived exNegSt).get? 1) YearDerived.runBal =
        some (-100)) := by
  refine ⟨?_, ?_, by with_unfolding_all decide, by with_unfolding_all decide⟩
  · intro st rec j k hrec hj hk
    obtain ⟨r, rest, hy, hdr⟩ :=
      deriveChain_head st true none none st.years rec hrec
    cases hd : r.date with
    | none =>
      rw [hdr, deriveRow_date_none st true none none r hd] at hj
      cases hj
    | some a =>
      obtain ⟨jv, kv, lv, hz, hp, hr, hkv, hlv, _, _⟩ :=
        deriveRow_date_some st true none none r a hd
      rw [hdr] at hj hk ⊢
      rw [hz] at hj
      rw [hp] at hk
      have hj' := Option.some.inj hj
      have hk' := Option.some.inj hk
      subst hj'
      subst hk'
      rw [hr]
      have hlv' : lv = jv - kv := by simpa using hlv
      rw [hlv']
  · intro st i rec prevRec prevRow j k hrec hprow hprev hj hk
    obtain ⟨prevRow', row, prevRec', h1, h2, h3, h4⟩ :=
      deriveChain_consec st st.years true none none i rec hrec
    have hpr : prevRow' = prevRow := by
      rw [h1] at hprow
      exact Option.some.inj hprow
    have h3' : (summaryDerived st).get? i = some prevRec' := h3
    have hpc : prevRec' = prevRec := by
      rw [h3'] at hprev
      exact Option.some.inj hprev
    rw [hpr, hpc] at h4
    cases hd : row.date with
    | none =>
      rw [h4, deriveRow_date_none st false prevRow.date prevRec.runBal
        row hd] at hj
      cases hj
    | some a =>
      obtain ⟨jv, kv, lv, hz, hp, hr, hkv, hlv, _, _⟩ :=
        deriveRow_date_some st false prevRow.date prevRec.runBal row a hd
      rw [h4] at hj hk ⊢
      rw [hz] at hj
      rw [hp] at hk
      have hj' := Option.some.inj hj
      have hk' := Option.some.inj hk
      subst hj'
      subst hk'
      rw [hr]
      have hlv' : lv = jv - kv +
          (match prevRow.date, prevRec.runBal with
           | some _, some plv => plv
           | _, _ => 0) := by simpa using hlv
      rw [hlv']

/-- C3 (witness): the first-row recurrence applied to the sample workbook:
362.50 due minus 300 paid gives a 62.50 running balance. -/
theorem c3_runningBalance_witness :
    exRec0.runBal = some ((725 / 2 : Rat) - 300) :=
  c3_runningBalance.1 exSt exRec0 (725 / 2) 300 rfl
    (by with_unfolding_all decide) (by with_unfolding_all decide)

/-- C4: paidThisPeriod is the sum of column-H totalPaid over Ledger entries
of type "Zakat" whose date falls in the half-open window
(previous row's date, this row's date]; for the first row the window is
(−∞, this row's date]. -/
theorem c4_paidThisPeriod :
    (∀ (st : WState) (rec : YearDerived) (row : YearRow) (a : XDate),
      st.years.get? 0 = some row → row.date = some a →
      (summaryDerived st).get? 0 = some rec →
      rec.paid = some (((st.ledger.filter
        (isZakatInWindow none a.serial)).map tpVal).sum)) ∧
    (∀ (st : WState) (i : Nat) (rec : YearDerived) (row prevRow : YearRow)
      (a p : XDate),
      st.years.get? (i + 1) = some row → row.date = some a →
      st.years.get? i = some prevRow → prevRow.date = some p →
      (summaryDerived st).get? (i + 1) = some rec →
      rec.paid = some (((st.ledger.filter
        (isZakatInWindow (some p.serial) a.serial)).map tpVal).sum)) := by
  constructor
  · intro st rec row a hrow hdate hrec
    obtain ⟨r, rest, hy, hdr⟩ :=
      deriveChain_head st true none none st.years rec hrec
    have hr0 : st.years.get? 0 = some r := by
      rw [hy]
      rfl
    have hreq : r = row := by
      rw [hr0] at hrow
      exact Option.some.inj hrow
    subst hreq
    obtain ⟨jv, kv, lv, hz, hp, hrb, hkv, hlv, _, _⟩ :=
      deriveRow_date_some st true none none r a hdate
    rw [hdr, hp]
    have hkv' : kv = sumWhere st.ledger (isZakatInWindow none a.serial) := by
      simpa using hkv
    rw [hkv', sumWhere_eq_filter]
  · intro st i rec row prevRow a p hrow hdate hprow hpdate hrec
    obtain ⟨prevRow', row', prevRec', h1, h2, h3, h4⟩ :=
      deriveChain_consec st st.years true none none i rec hrec
    have hpr : prevRow' = prevRow := by
      rw [h1] at hprow
      exact Option.some.inj hprow
    have hrr : row' = row := by
      rw [h2] at hrow
      exact Option.some.inj hrow
    rw [hpr, hrr] at h4
    obtain ⟨jv, kv, lv, hz, hp, hrb, hkv, hlv, _, _⟩ :=
      deriveRow_date_some st false prevRow.date prevRec'.runBal row a hdate
    rw [h4, hp]
    have hkv' : kv =
        sumWhere st.ledger (isZakatAfterPrev prevRow.date a.serial) := by
      simpa using hkv
    rw [hpdate] at hkv'
    have hwin : sumWhere st.ledger (isZakatAfterPrev (some p) a.serial) =
        sumWhere st.ledger (isZakatInWindow (some p.serial) a.serial) := by
      unfold sumWhere
      apply sum_map_congr
      intro e _
      rw [afterPrev_eq_window]
    rw [hkv', hwin, sumWhere_eq_filter]

/-- C4 (witness): the window sum evaluated on the sample workbook's second
summary row (window (100, 454], no matching Zakat entries, paid 0). -/
theorem c4_paidThisPeriod_witness :
    exRec1.paid = some (((exSt.ledger.filter
      (isZakatInWindow (some exDate0.serial) exDate1.serial)).map
        tpVal).sum) :=
  c4_paidThisPeriod.2 exSt 0 exRec1 exYear1 exYear0 exDate1 exDate0
    rfl rfl rfl rfl rfl

/-- C5 (counterexample): the claim asserts broughtForward(i) =
max(0, runningBalance(i−1)) at every position, but a blank-date row
renders broughtForward blank: in `exC5St` row 0 carries balance 100 while
the blank-date row 1 shows blank, not max(0,100). -/
theorem c5_broughtForward_counterexample :
    (summaryDerived exC5St).get? 0 = some exC5r0 ∧
    exC5r0.runBal = some 100 ∧
    (summaryDerived exC5St).get? 1 = some exC5r1 ∧
    exC5r1.broughtFwd = none ∧
    exC5r1.broughtFwd ≠ some (max 0 (100 : Rat)) := by
  exact ⟨rfl, by with_unfolding_all decide, rfl,
    by with_unfolding_all decide, by with_unfolding_all decide⟩

/-- C5 (amended): restricted to rows with a non-blank date, broughtForward
is 0 at the first position and max(0, previous running balance) afterwards,
with a blank previous balance contributing 0; a blank-date row's
broughtForward cell is itself blank. -/
theorem c5_broughtForward_amended :
    (∀ (st : WState) (rec : YearDerived) (row : YearRow) (a : XDate),
      st.years.get? 0 = some row → row.date = some a →
      (summaryDerived st).get? 0 = some rec →
      rec.broughtFwd = some 0) ∧
    (∀ (st : WState) (i : Nat) (rec prevRec : YearDerived) (row : YearRow)
      (a : XDate),
      st.years.get? (i + 1) = some row → row.date = some a →
      (summaryDerived st).get? (i + 1) = some rec →
      (summaryDerived st).get? i = some prevRec →
      rec.broughtFwd = some
        (match prevRec.runBal with
         | some l => max 0 l
         | none => 0)) ∧
    (∀ (st : WState) (i : Nat) (rec : YearDerived) (row : YearRow),
      st.years.get? i = some row → row.date = none →
      (summaryDerived st).get? i = some rec →
      rec.broughtFwd = none) := by
  refine ⟨?_, ?_, ?_⟩
  · intro st rec row a hrow hdate hrec
    obtain ⟨r, rest, hy, hdr⟩ :=
      deriveChain_head st true none none st.years rec hrec
    have hr0 : st.years.get? 0 = some r := by
      rw [hy]
      rfl
    have hreq : r = row := by
      rw [hr0] at hrow
      exact Option.some.inj hrow
    subst hreq
    obtain ⟨jv, kv, lv, hz, hp, hrb, hkv, hlv, hst, hbf⟩ :=
      deriveRow_date_some st true none none r a hdate
    rw [hdr, hbf]
    simp
  · intro st i rec prevRec row a hrow hdate hrec hprev
    obtain ⟨prevRow', row', prevRec', h1, h2, h3, h4⟩ :=
      deriveChain_consec st st.years true none none i rec hrec
    have hrr : row' = row := by
      rw [h2] at hrow
      exact Option.some.inj hrow
    have h3' : (summaryDerived st).get? i = some prevRec' := h3
    have hpc : prevRec' = prevRec := by
      rw [h3'] at hprev
      exact Option.some.inj hprev
    rw [hrr, hpc] at h4
    obtain ⟨jv, kv, lv, hz, hp, hrb, hkv, hlv, hst, hbf⟩ :=
      deriveRow_date_some st false prevRow'.date prevRec.runBal row a hdate
    rw [h4, hbf]
    simp
  · intro st i rec row hrow hdate hrec
    obtain ⟨row', f', pd', pl', hrow', hdr⟩ :=
      deriveChain_shape st st.years true none none i rec hrec
    have hrr : row' = row := by
      rw [hrow'] at hrow
      exact Option.some.inj hrow
    subst hrr
    rw [hdr, deriveRow_date_none st f' pd' pl' row' hdate]

/-- C5 (witness): the amended carry rule at the sample workbook's second
row: broughtForward = max(0, 62.50). -/
theorem c5_broughtForward_amended_witness :
    exRec1.broughtFwd = some
      (match exRec0.runBal with
       | some l => max 0 l
       | none => 0) :=
  c5_broughtForward_amended.2.1 exSt 0 exRec1 exRec0 exYear1 exDate1
    rfl rfl rfl rfl

/-- C6 (counterexample): the search bar's count is the sum of three
per-column COUNTIFs, so the single entry of `c6Led`, which contains
"mosque" in both Given To and Notes, is counted twice: the count is 2
while the matching-position set is {0}; and with an empty needle no row
is highlighted even though the claim says every entry matches. -/
theorem c6_search_counterexample :
    searchCount c6Led "mosque" = some 2 ∧
    highlightPositions c6Led "mosque" = [0] ∧
    searchCount c6Led "mosque" ≠
      some (highlightPositions c6Led "mosque").length ∧
    highlightPositions c6Led "" = [] ∧
    c6Led.length = 1 := by
  exact ⟨by with_unfolding_all decide, by with_unfolding_all decide,
    by with_unfolding_all decide, by with_unfolding_all decide,
    by with_unfolding_all decide⟩

/-- C6 (amended): for a non-empty needle the displayed count is the total
of per-field case-insensitive substring matches over Given To, Notes and
Type — an entry is counted once per matching field — while the highlighted
position set consists of the entries matching in at least one field; the
count is therefore at least the set's size, and equals it when no entry
matches in more than one field.  An empty needle produces no count and no
highlighting (all entries are simply shown). -/
theorem c6_search_amended :
    (∀ (led : List PaymentEntry) (needle : String), needle ≠ "" →
      searchCount led needle =
        some ((led.map (numFieldsMatching needle)).sum) ∧
      highlightPositions led needle = matchRows (rowMatches needle) led ∧
      (highlightPositions led needle).length =
        (led.filter (rowMatches needle)).length ∧
      (led.filter (rowMatches needle)).length ≤
        (led.map (numFieldsMatching needle)).sum ∧
      ((∀ e ∈ led, numFieldsMatching needle e ≤ 1) →
        searchCount led needle =
          some (highlightPositions led needle).length)) ∧
    (∀ led : List PaymentEntry,
      searchCount led "" = none ∧ highlightPositions led "" = []) := by
  constructor
  · intro led needle hne
    have hc : searchCount led needle =
        some (fieldCount led (fun e => e.recipient) needle
          + fieldCount led (fun e => e.notes) needle
          + fieldCount led (fun e => e.type) needle) := by
      rw [searchCount, if_neg hne]
    have hsum : fieldCount led (fun e => e.recipient) needle
        + fieldCount led (fun e => e.notes) needle
        + fieldCount led (fun e => e.type) needle
        = (led.map (numFieldsMatching needle)).sum := by
      unfold fieldCount
      rw [filter_length_eq_sum, filter_length_eq_sum, filter_length_eq_sum]
      rw [← sum_map_add, ← sum_map_add]
      apply sum_map_congr
      intro e _
      rfl
    have hhl : highlightPositions led needle =
        matchRows (rowMatches needle) led := by
      rw [highlightPositions, if_neg hne]
    have hlen : (highlightPositions led needle).length =
        (led.filter (rowMatches needle)).length := by
      rw [hhl]
      exact matchRowsAux_length led 0
    refine ⟨by rw [hc, hsum], hhl, hlen, ?_, ?_⟩
    · rw [filter_length_eq_sum]
      exact sum_map_le (fun e _ => indicator_le_numFields needle e)
    · intro hone
      rw [hc, hsum, hlen, filter_length_eq_sum]
      have : ∀ e ∈ led, numFieldsMatching needle e =
          (if rowMatches needle e then 1 else 0) :=
        fun e he => indicator_eq_numFields needle e (hone e he)
      rw [sum_map_congr this]
  · intro led
    exact ⟨rfl, rfl⟩

/-- C6 (witness): the amended count/set relation evaluated on the
double-matching concrete ledger. -/
theorem c6_search_amended_witness :
    searchCount c6Led "mosque" =
      some ((c6Led.map (numFieldsMatching "mosque")).sum) :=
  (c6_search_amended.1 c6Led "mosque" (by decide)).1

/-- C7: the Hawl tracker.  With no non-blank dates every cell is the
blank/sentinel value; otherwise lastDate is the maximum date, nextDue is
exactly lastDate + 354 days, daysRemaining is clamped at 0, and the status
is DueNow when today is past nextDue, DueSoon within 30 days (inclusive,
so 30 remaining days is DueSoon and 31 is InProgress), else InProgress. -/
theorem c7_hawlTracker :
    (∀ (ys : List YearRow) (t : Nat),
      dateSerials ys = [] → hawlTracker ys t = ⟨none, none, none, none⟩) ∧
    (∀ (ys : List YearRow) (t ld : Nat),
      lastSerial ys = some ld →
      ld ∈ dateSerials ys ∧ (∀ d ∈ dateSerials ys, d ≤ ld) ∧
      hawlTracker ys t = ⟨some ld, some (ld + 354),
        some (max 0 (((ld + 354 : Nat) : Int) - (t : Int))),
        some (if (t : Int) > ((ld + 354 : Nat) : Int) then HawlStatus.dueNow
          else if ((ld + 354 : Nat) : Int) - (t : Int) ≤ 30 then
            HawlStatus.dueSoon
          else HawlStatus.inProgress)⟩) ∧
    (∀ (ys : List YearRow) (t : Nat) (rem : Int),
      (hawlTracker ys t).daysRemaining = some rem →
      (rem = 30 → (hawlTracker ys t).status = some HawlStatus.dueSoon) ∧
      (rem = 31 → (hawlTracker ys t).status = some HawlStatus.inProgress)) := by
  refine ⟨?_, ?_, ?_⟩
  · intro ys t h
    unfold hawlTracker lastSerial
    rw [h]
  · intro ys t ld h
    cases hds : dateSerials ys with
    | nil =>
      have : lastSerial ys = none := by
        unfold lastSerial
        rw [hds]
      rw [this] at h
      cases h
    | cons d rest =>
      have h' : lastSerial ys = some (rest.foldl max d) := by
        unfold lastSerial
        rw [hds]
      have hld : rest.foldl max d = ld := Option.some.inj (h'.symm.trans h)
      refine ⟨?_, ?_, ?_⟩
      · rw [← hld]
        rcases foldl_max_mem rest d with hm | hm
        · rw [hm]
          exact List.mem_cons_self d rest
        · exact List.mem_cons_of_mem d hm
      · intro x hx
        rw [← hld]
        rcases List.mem_cons.mp hx with hh | hh
        · subst hh
          exact le_foldl_max rest x
        · exact foldl_max_le_of_mem rest d x hh
      · unfold hawlTracker
        rw [h]
  · intro ys t rem hrem
    cases hls : lastSerial ys with
    | none =>
      unfold hawlTracker at hrem
      rw [hls] at hrem
      cases hrem
    | some ld =>
      unfold hawlTracker at hrem ⊢
      rw [hls] at hrem ⊢
      have hval : max 0 (((ld + 354 : Nat) : Int) - (t : Int)) = rem :=
        Option.some.inj hrem
      constructor
      · intro h30
        subst h30
        have hd : ((ld + 354 : Nat) : Int) - (t : Int) = 30 := by
          rcases le_total (((ld + 354 : Nat) : Int) - (t : Int)) 0 with hle | hge
          · rw [max_eq_left hle] at hval
            omega
          · rw [max_eq_right hge] at hval
            exact hval
        have h1 : ¬((t : Int) > ((ld + 354 : Nat) : Int)) := by omega
        have h2 : ((ld + 354 : Nat) : Int) - (t : Int) ≤ 30 := by omega
        simp only [if_neg h1, if_pos h2]
      · intro h31
        subst h31
        have hd : ((ld + 354 : Nat) : Int) - (t : Int) = 31 := by
          rcases le_total (((ld + 354 : Nat) : Int) - (t : Int)) 0 with hle | hge
          · rw [max_eq_left hle] at hval
            omega
          · rw [max_eq_right hge] at hval
            exact hval
        have h1 : ¬((t : Int) > ((ld + 354 : Nat) : Int)) := by omega
        have h2 : ¬(((ld + 354 : Nat) : Int) - (t : Int) ≤ 30) := by omega
        simp only [if_neg h1, if_neg h2]

/-- C7 (witness): the tracker evaluated on the sample dates (last date
serial 454) on day 500: next due 808, 308 days remaining, in progress. -/
theorem c7_hawlTracker_witness :
    hawlTracker [exYear0, exYear1] 500 = ⟨some 454, some (454 + 354),
      some (max 0 (((454 + 354 : Nat) : Int) - (500 : Int))),
      some (if (500 : Int) > ((454 + 354 : Nat) : Int) then HawlStatus.dueNow
        else if ((454 + 354 : Nat) : Int) - (500 : Int) ≤ 30 then
          HawlStatus.dueSoon
        else HawlStatus.inProgress)⟩ :=
  (c7_hawlTracker.2.1 [exYear0, exYear1] 500 454 (by decide)).2.2

/-- C8: the Reports detail view equals the stable filtered subsequence —
the recipient-and-year matches in their original table-position order —
truncated to the fixed 100-row window and padded with blank rows beyond
the match count; every rendered row is the source entry itself, all fields
unmodified.  The SMALL-rank helper column is strictly increasing, which is
what makes the view order-stable. -/
theorem c8_detailView (led : List PaymentEntry) (r : String)
    (yf : Option Nat) :
    detailTable led r yf =
      ((led.filter (matchPred r yf)).take 100).map some
        ++ List.replicate (100 - (led.filter (matchPred r yf)).length) none
    ∧ (matchRows (matchPred r yf) led).Pairwise (fun a b => a < b) := by
  constructor
  · unfold detailTable
    have hfun : ∀ k ∈ List.range 100,
        ((matchRows (matchPred r yf) led).get? k).bind
          (fun idx => led.get? idx)
          = (led.filter (matchPred r yf)).get? k :=
      fun k _ => matchRows_get?_bind (matchPred r yf) led k
    rw [List.map_congr_left hfun]
    exact range_map_get? (led.filter (matchPred r yf)) 100
  · exact matchRowsAux_sorted led 0

/-- C9: a hyperproperty — two workbook states differing only in the
silverNisabOz setting derive identical Zakat Summary rows (the Nisab
threshold reads only goldNisabOz, Settings!D44); silverNisabOz does reach
the standalone Settings-sheet Nisab calculator display, witnessed by two
such states whose calculator outputs differ. -/
theorem c9_silver_noninterference :
    (∀ (st : WState) (x : Rat),
      summaryDerived { st with silverNisabOz := x } = summaryDerived st) ∧
    silverNisabDisplay { exSt with silverNisabOz := exSt.silverNisabOz + 1 }
        1 1 ≠ silverNisabDisplay exSt 1 1 := by
  constructor
  · intro st x
    unfold summaryDerived
    have hy : ({ st with silverNisabOz := x }).years = st.years := rfl
    rw [hy, deriveChain_silver]
  · with_unfolding_all decide

/-- C10: the Reports TOTAL row filters by recipient and year only, while
each breakdown row additionally requires a listed type; the two aggregates
agree whenever every matching entry's type sits in exactly one non-blank
Settings slot, and the concrete state `c10Led`/`c10Slots` — whose matching
entry has the unlisted type "Other" — makes the TOTAL strictly exceed the
breakdown sum. -/
theorem c10_total_vs_breakdown :
    (∀ (led : List PaymentEntry) (slots : List String) (r : String)
      (yf : Option Nat),
      (∀ e ∈ led, matchPred r yf e = true → occCount slots e.type = 1) →
      totalAllTypes led r yf = breakdownSum led slots r yf) ∧
    (matchPred "Bob" none ⟨some ⟨10, 2024⟩, "Other", "Wise", "Bob", "", 50, 0⟩
        = true ∧
      occCount c10Slots "Other" = 0 ∧
      breakdownSum c10Led c10Slots "Bob" none <
        totalAllTypes c10Led "Bob" none) := by
  constructor
  · intro led slots r yf hocc
    rw [breakdownSum_swap, totalAllTypes, sumWhere]
    apply sum_map_congr
    intro e he
    by_cases hm : matchPred r yf e
    · rw [if_pos hm, if_pos hm, hocc e he hm]
      norm_num
    · rw [if_neg hm, if_neg hm]
  · exact ⟨by decide, by decide, by with_unfolding_all decide⟩

/-- C10 (witness): agreement on the sample ledger, whose "Local Mosque"
entries have types Zakat and Sadaqah, each listed exactly once. -/
theorem c10_total_vs_breakdown_witness :
    totalAllTypes exLedger "Local Mosque" none =
      breakdownSum exLedger ["Zakat", "Sadaqah"] "Local Mosque" none :=
  c10_total_vs_breakdown.1 exLedger ["Zakat", "Sadaqah"] "Local Mosque" none
    (by with_unfolding_all decide)

end ZakatTracker
